import Mathlib

/-!
Verification of the powerfuluk-collection-sort webhook service.

This file gives a shallow embedding of the service's JavaScript source:

* src/helpers/index.js — the HMAC-SHA256 webhook signature check
  (validateWebhook), embedded over byte lists with a full executable
  SHA-256 / HMAC / base64 implementation;
* the handleProductUpdate reconciliation pass of the multi-tenant variant
  (src/unnamed/part_002; the collection-ordering loop is shared verbatim
  with src/index.js and src/unnamed/part_001), embedded as an interpreter
  over a JavaScript value model with explicit exceptions and a trace of
  the outbound GraphQL requests it issues;
* the POST /webhooks HTTP handlers of the multi-tenant variant
  (src/unnamed/part_002) and of the single-tenant variant (src/index.js).

Machine integers are Nat with explicit mod 2^32 where SHA-256 needs it.
JavaScript numbers are modeled as exact rationals (a pair of an integer
numerator and a positive denominator); NaN is modeled as Option.none at
the points where the source can produce it.  Exceptions are modeled with
Except; a thrown exception inside a try block propagates to the catch.
-/

/-! ## 32-bit words and SHA-256 (as computed by crypto.createHmac('sha256', ...)) -/

def w32mod : Nat := 4294967296

def add32 (a b : Nat) : Nat := (a + b) % w32mod

def rotr32 (r a : Nat) : Nat := ((a >>> r) + ((a <<< (32 - r)) % w32mod)) % w32mod

def not32 (a : Nat) : Nat := 4294967295 - a

def bsig0 (a : Nat) : Nat := Nat.xor (rotr32 2 a) (Nat.xor (rotr32 13 a) (rotr32 22 a))

def bsig1 (a : Nat) : Nat := Nat.xor (rotr32 6 a) (Nat.xor (rotr32 11 a) (rotr32 25 a))

def ssig0 (a : Nat) : Nat := Nat.xor (rotr32 7 a) (Nat.xor (rotr32 18 a) (a >>> 3))

def ssig1 (a : Nat) : Nat := Nat.xor (rotr32 17 a) (Nat.xor (rotr32 19 a) (a >>> 10))

def chF (x y z : Nat) : Nat := Nat.xor (Nat.land x y) (Nat.land (not32 x) z)

def majF (x y z : Nat) : Nat := Nat.xor (Nat.land x y) (Nat.xor (Nat.land x z) (Nat.land y z))

/-- The 64 SHA-256 round constants, written in decimal. -/
def sha256K : List Nat :=
  [1116352408, 1899447441, 3049323471, 3921009573, 961987163,
   1508970993, 2453635748, 2870763221, 3624381080, 310598401,
   607225278, 1426881987, 1925078388, 2162078206, 2614888103,
   3248222580, 3835390401, 4022224774, 264347078, 604807628,
   770255983, 1249150122, 1555081692, 1996064986, 2554220882,
   2821834349, 2952996808, 3210313671, 3336571891, 3584528711,
   113926993, 338241895, 666307205, 773529912, 1294757372,
   1396182291, 1695183700, 1986661051, 2177026350, 2456956037,
   2730485921, 2820302411, 3259730800, 3345764771, 3516065817,
   3600352804, 4094571909, 275423344, 430227734, 506948616,
   659060556, 883997877, 958139571, 1322822218, 1537002063,
   1747873779, 1955562222, 2024104815, 2227730452, 2361852424,
   2428436474, 2756734187, 3204031479, 3329325298]

/-- The eight SHA-256 initial hash words, written in decimal. -/
def sha256H0 : List Nat :=
  [1779033703, 3144134277, 1013904242,
   2773480762, 1359893119, 2600822924,
   528734635, 1541459225]

def bytesToWords : List Nat → List Nat
  | a :: b :: c :: d :: rest => (((a * 256 + b) * 256 + c) * 256 + d) :: bytesToWords rest
  | _ => []

def lenBytes8 (n : Nat) : List Nat :=
  [n >>> 56 % 256, n >>> 48 % 256, n >>> 40 % 256, n >>> 32 % 256,
   n >>> 24 % 256, n >>> 16 % 256, n >>> 8 % 256, n % 256]

def padMsg (msg : List Nat) : List Nat :=
  msg ++ 0x80 :: List.replicate ((119 - msg.length % 64) % 64) 0 ++ lenBytes8 (8 * msg.length)

def chunks64Go : Nat → List Nat → List (List Nat)
  | 0, _ => []
  | _, [] => []
  | Nat.succ fuel, l => l.take 64 :: chunks64Go fuel (l.drop 64)

def chunks64 (l : List Nat) : List (List Nat) := chunks64Go l.length l

def extendSchedule : Nat → List Nat → List Nat
  | 0, w => w
  | Nat.succ n, w =>
    extendSchedule n (w ++ [add32 (add32 (ssig1 (w.getD (w.length - 2) 0)) (w.getD (w.length - 7) 0))
                            (add32 (ssig0 (w.getD (w.length - 15) 0)) (w.getD (w.length - 16) 0))])

def sha256Round (st : List Nat) (kw : Nat × Nat) : List Nat :=
  match st with
  | [a, b, c, d, e, f, g, h] =>
    let t1 := add32 h (add32 (bsig1 e) (add32 (chF e f g) (add32 kw.1 kw.2)))
    let t2 := add32 (bsig0 a) (majF a b c)
    [add32 t1 t2, a, b, c, add32 d t1, e, f, g]
  | st => st

def compressBlock (st : List Nat) (block : List Nat) : List Nat :=
  let ws := extendSchedule 48 (bytesToWords block)
  let fin := (sha256K.zip ws).foldl sha256Round st
  List.zipWith add32 st fin

def wordBytes (w : Nat) : List Nat := [w >>> 24 % 256, w >>> 16 % 256, w >>> 8 % 256, w % 256]

def sha256 (msg : List Nat) : List Nat :=
  (((chunks64 (padMsg msg)).foldl compressBlock sha256H0).map wordBytes).flatten

def hmacSha256 (key msg : List Nat) : List Nat :=
  let key1 := if key.length > 64 then sha256 key else key
  let kfull := key1 ++ List.replicate (64 - key1.length) 0
  let ipadK := kfull.map (fun b => Nat.xor b 0x36)
  let opadK := kfull.map (fun b => Nat.xor b 0x5c)
  sha256 (opadK ++ sha256 (ipadK ++ msg))

/-! ## Base64 (hmac.digest('base64')) and UTF-8 bytes (Buffer.from(string)) -/

def b64Alphabet : List Nat :=
  "ABCDEFGHIJKLMNOPQRSTUVWXYZabcdefghijklmnopqrstuvwxyz0123456789+/".data.map Char.toNat

def b64At (i : Nat) : Nat := b64Alphabet.getD i 0

def base64Encode : List Nat → List Nat
  | a :: b :: c :: rest =>
    let n := (a * 256 + b) * 256 + c
    b64At (n >>> 18) :: b64At (n >>> 12 % 64) :: b64At (n >>> 6 % 64) :: b64At (n % 64) ::
      base64Encode rest
  | [a, b] =>
    let n := (a * 256 + b) * 4
    [b64At (n >>> 12), b64At (n >>> 6 % 64), b64At (n % 64), 61]
  | [a] =>
    let n := a * 16
    [b64At (n >>> 6), b64At (n % 64), 61, 61]
  | [] => []

def utf8EncodeCodepoint (n : Nat) : List Nat :=
  if n < 128 then [n]
  else if n < 2048 then [192 + n / 64, 128 + n % 64]
  else if n < 65536 then [224 + n / 4096, 128 + n / 64 % 64, 128 + n % 64]
  else [240 + n / 262144, 128 + n / 4096 % 64, 128 + n / 64 % 64, 128 + n % 64]

def utf8Bytes (s : String) : List Nat := (s.data.map (fun c => utf8EncodeCodepoint c.toNat)).flatten

/-- Base64 text (as ASCII bytes) of the HMAC-SHA256 of msg under the given key,
exactly what crypto.createHmac('sha256', sig).update(body).digest('base64') yields. -/
def hmacSha256Base64 (key msg : List Nat) : List Nat := base64Encode (hmacSha256 key msg)

/-! ## Model of JavaScript exceptions -/

/-- Exception kinds the embedded code can throw.  typeErr models a TypeError
(property access on null or undefined, calling a non-function, Buffer.from of
undefined, createHmac with an undefined key); rangeErr models the RangeError
thrown by crypto.timingSafeEqual on buffers of different byte lengths; synErr
models a SyntaxError from JSON.parse; transport models a rejected network call
of the GraphQL client. -/
inductive JErr where
  | typeErr
  | rangeErr
  | synErr
  | transport
  deriving DecidableEq, Repr

/-! ## validateWebhook (src/helpers/index.js)

export function validateWebhook(body, hmacHeader, sig) with body the raw
request bytes, hmacHeader the value of the x-shopify-hmac-sha256 header
(undefined when the header is missing), and sig the shared secret (undefined
when the caller passes none).  crypto.createHmac throws a TypeError when its
key is undefined; Buffer.from(undefined) throws a TypeError; and
crypto.timingSafeEqual throws a RangeError when the two buffers differ in
byte length, otherwise it returns the byte-equality of the buffers. -/

def validateWebhook (body : List Nat) (hmacHeader : Option String) (sig : Option String) :
    Except JErr Bool :=
  match sig with
  | none => .error .typeErr
  | some s =>
    let computedHmac := hmacSha256Base64 (utf8Bytes s) body
    match hmacHeader with
    | none => .error .typeErr
    | some h =>
      if computedHmac.length = (utf8Bytes h).length then
        .ok (decide (computedHmac = utf8Bytes h))
      else
        .error .rangeErr

/-! ## JavaScript values

JVal models the JSON-like values the service manipulates: GraphQL responses,
parsed webhook bodies and metafield contents.  Numbers are modeled as exact
rationals Q with a positive denominator (every number the embedded code builds
has one); NaN never inhabits JVal because the embedded code only stores
numbers obtained from JSON or list lengths, and the one place a NaN can arise
(Number applied to a non-numeric string inside the sort comparator) is modeled
as Option.none at that point. -/

structure Q where
  num : Int
  den : Nat
  deriving DecidableEq, Repr

/-- Comparison of exact rationals with positive denominators:
a.num / a.den is at most b.num / b.den. -/
def qle (a b : Q) : Bool := a.num * (b.den : Int) ≤ b.num * (a.den : Int)

inductive JVal where
  | undefined
  | null
  | boolv (b : Bool)
  | num (q : Q)
  | str (s : String)
  | arr (xs : List JVal)
  | obj (fields : List (String × JVal))

/-- Property access base.field as JavaScript evaluates it: a TypeError on null
or undefined, the looked-up field (or undefined) on an object, and undefined on
any other primitive. -/
def jsGetE : JVal → String → Except JErr JVal
  | .undefined, _ => .error .typeErr
  | .null, _ => .error .typeErr
  | .obj fields, k => .ok ((fields.lookup k).getD .undefined)
  | _, _ => .ok .undefined

/-- Optional chaining base?.field: undefined when the base is null or
undefined, otherwise plain property access (which cannot throw then). -/
def jsGetOpt : JVal → String → JVal
  | .undefined, _ => .undefined
  | .null, _ => .undefined
  | .obj fields, k => (fields.lookup k).getD .undefined
  | _, _ => .undefined

/-- Chained property access v.f1.f2...; stops with the first thrown TypeError. -/
def getPath : JVal → List String → Except JErr JVal
  | v, [] => .ok v
  | v, f :: fs =>
    match jsGetE v f with
    | .error e => .error e
    | .ok v2 => getPath v2 fs

/-- Iteration (for..of and array spread): arrays yield their elements, strings
their characters, anything else throws a TypeError (not iterable). -/
def jsIterE : JVal → Except JErr (List JVal)
  | .arr xs => .ok xs
  | .str s => .ok (s.data.map (fun c => JVal.str (String.mk [c])))
  | _ => .error .typeErr

/-- Array.prototype.map receiver check: only arrays have .map; calling .map on
any other value throws a TypeError. -/
def jsArrE : JVal → Except JErr (List JVal)
  | .arr xs => .ok xs
  | _ => .error .typeErr

/-- The .length read used in if (x.userErrors.length): throws on null and
undefined, yields the element count of an array, the character count of a
string, and undefined otherwise. -/
def jsLenE : JVal → Except JErr JVal
  | .undefined => .error .typeErr
  | .null => .error .typeErr
  | .arr xs => .ok (.num ⟨xs.length, 1⟩)
  | .str s => .ok (.num ⟨s.data.length, 1⟩)
  | _ => .ok .undefined

/-- JavaScript truthiness: undefined, null, false, 0 and the empty string are
falsy, everything else (including every object and array) is truthy. -/
def jsTruthy : JVal → Bool
  | .undefined => false
  | .null => false
  | .boolv b => b
  | .num q => decide (q.num ≠ 0)
  | .str s => decide (s ≠ "")
  | .arr _ => true
  | .obj _ => true

/-- The a || b expression: a when truthy, else b. -/
def jsOr (a b : JVal) : JVal := if jsTruthy a then a else b

/-! ## Number(string) and Number(value)

jsNumberChars models Number applied to a string: surrounding whitespace is
dropped, the empty remainder is 0, an optional sign followed by a decimal
literal (integer part, optional fraction, optional exponent) yields its exact
rational value, and anything else is NaN (modeled as none).  Hexadecimal,
octal, binary and Infinity literals, which Number also accepts, are not
modeled; no theorem below depends on them. -/

def isWsChar (c : Char) : Bool := c = ' ' || c = '\t' || c = '\n' || c = '\r'

def isDigitChar (c : Char) : Bool := 48 ≤ c.toNat && c.toNat ≤ 57

def readDigits : List Char → Nat → Nat → Nat × Nat × List Char
  | [], acc, k => (acc, k, [])
  | c :: cs, acc, k =>
    if isDigitChar c then readDigits cs (acc * 10 + (c.toNat - 48)) (k + 1) else (acc, k, c :: cs)

def qOfParts (neg : Bool) (mant : Nat) (fk : Nat) (eneg : Bool) (e : Nat) : Q :=
  let sn : Int := if neg then -(mant : Int) else (mant : Int)
  let edown := if eneg then fk + e else fk
  let eup := if eneg then 0 else e
  ⟨sn * ((10 : Int) ^ eup), 10 ^ edown⟩

def parseExpTail (neg : Bool) (mant : Nat) (fk : Nat) : List Char → Option Q
  | [] => some (qOfParts neg mant fk false 0)
  | c :: cs =>
    if c = 'e' || c = 'E' then
      let (eneg, cs2) :=
        match cs with
        | '-' :: r => (true, r)
        | '+' :: r => (false, r)
        | r => (false, r)
      let (ev, ek, rest) := readDigits cs2 0 0
      if ek = 0 || rest ≠ [] then none else some (qOfParts neg mant fk eneg ev)
    else none

def parseDecimal (neg : Bool) (l : List Char) : Option Q :=
  let (ip, ik, r1) := readDigits l 0 0
  match r1 with
  | '.' :: r2 =>
    let (fp, fk, r3) := readDigits r2 0 0
    if ik = 0 && fk = 0 then none else parseExpTail neg (ip * 10 ^ fk + fp) fk r3
  | _ => if ik = 0 then none else parseExpTail neg ip 0 r1

def jsNumberChars (l : List Char) : Option Q :=
  let t := ((l.dropWhile isWsChar).reverse.dropWhile isWsChar).reverse
  match t with
  | [] => some ⟨0, 1⟩
  | '-' :: r => parseDecimal true r
  | '+' :: r => parseDecimal false r
  | r => parseDecimal false r

/-- Number(v) for a JVal; none models NaN.  The array and object cases (which
JavaScript coerces through toString) are approximated as NaN; the embedded
code only reaches this conversion with strings, numbers and the literal 0. -/
def jsToNumber : JVal → Option Q
  | .undefined => none
  | .null => some ⟨0, 1⟩
  | .boolv b => some ⟨if b then 1 else 0, 1⟩
  | .num q => some q
  | .str s => jsNumberChars s.data
  | .arr _ => none
  | .obj _ => none

/-! ## JSON.stringify

jsonStringifyD models JSON.stringify on the values the service feeds it:
arrays of member identifiers (for the reorder skip check) and arrays of
product identifiers (for the metafield value).  The fuel argument bounds the
nesting depth so the recursion is structural; 256 exceeds any depth the
embedded code can build.  Undefined inside an array serializes as null, as in
JavaScript.  Non-integer numbers, which JavaScript prints as shortest-roundtrip
doubles, are approximated (no theorem below serializes one), as are control
characters inside strings (only quote and backslash are escaped). -/

def escapeJsonChars : List Char → List Char
  | [] => []
  | c :: cs =>
    if c = '"' || c = '\\' then '\\' :: c :: escapeJsonChars cs else c :: escapeJsonChars cs

def jsonStringifyQ (q : Q) : String :=
  if q.den = 1 then toString q.num else toString q.num ++ "%" ++ toString q.den

def jsonStringifyD : Nat → JVal → String
  | _, .undefined => "null"
  | _, .null => "null"
  | _, .boolv b => if b then "true" else "false"
  | _, .num q => jsonStringifyQ q
  | _, .str s => String.mk ('"' :: escapeJsonChars s.data ++ ['"'])
  | 0, .arr _ => ""
  | 0, .obj _ => ""
  | Nat.succ fuel, .arr xs => "[" ++ String.intercalate "," (xs.map (jsonStringifyD fuel)) ++ "]"
  | Nat.succ fuel, .obj fs =>
    "\x7b" ++
      String.intercalate ","
        (fs.map (fun kv => String.mk ('"' :: escapeJsonChars kv.1.data ++ ['"']) ++ ":" ++
          jsonStringifyD fuel kv.2)) ++ "\x7d"

/-- JSON.stringify of an array value, the only shape the embedded code
stringifies (both identifier sequences of the skip check and the metafield
value list). -/
def jsonStringifyArr (l : List JVal) : String := jsonStringifyD 256 (JVal.arr l)

/-! ## Array.prototype.sort

The source sorts with a numeric comparator: (a, b) =>
Number(a.node.order?.value || 0) - Number(b.node.order?.value || 0).
Array.prototype.sort is a stable sort; per the ECMAScript SortCompare step, a
NaN comparator result is coerced to +0, so any comparison involving a NaN key
reports a tie.  For a consistent comparator every stable sorting algorithm
yields the same, unique result, so the sort is embedded as a stable insertion
sort: an element is placed before the already-sorted suffix elements it
compares less-or-equal to, and after those it ties with that preceded it. -/

def jsSortInsert (le : α → α → Bool) (x : α) : List α → List α
  | [] => [x]
  | y :: ys => if le x y then x :: y :: ys else y :: jsSortInsert le x ys

def jsArraySort (le : α → α → Bool) : List α → List α
  | [] => []
  | x :: xs => jsSortInsert le x (jsArraySort le xs)

/-- Adjacent-pairwise ordering: every element compares less-or-equal to its
successor. -/
def adjSorted (le : α → α → Bool) : List α → Bool
  | [] => true
  | [_] => true
  | x :: y :: rest => le x y && adjSorted le (y :: rest)

/-! ## Collection members and the reorder move list (handleProductUpdate)

A Member is one element of collection.node.products.edges after the two field
accesses the loop performs on it: product.node.id, and the comparator operand
a.node.order?.value. -/

structure Member where
  id : JVal
  orderValue : JVal

/-- The comparator key Number(a.node.order?.value || 0); none models NaN. -/
def memberKey (m : Member) : Option Q := jsToNumber (jsOr m.orderValue (JVal.num ⟨0, 1⟩))

/-- Boolean form of the source comparator, as Array.prototype.sort consumes
it: a precedes b exactly when the comparator does not return a positive
number, and a NaN difference counts as 0 (a tie). -/
def cmpLe (a b : Member) : Bool :=
  match memberKey a, memberKey b with
  | some x, some y => qle x y
  | _, _ => true

def sortMembers (l : List Member) : List Member := jsArraySort cmpLe l

structure Move where
  id : JVal
  newPosition : String

/-- The .map((product, index) => ({ id: ..., newPosition: String(index + 1) }))
step over the sorted members. -/
def movesGo : Nat → List Member → List Move
  | _, [] => []
  | i, m :: ms => ⟨m.id, toString (i + 1)⟩ :: movesGo (i + 1) ms

def movesFromSorted (l : List Member) : List Move := movesGo 0 l

/-- The full moves computation of handleProductUpdate: stable-sort the fetched
members by the numeric comparator, then assign 1-based positions. -/
def movesOf (l : List Member) : List Move := movesFromSorted (sortMembers l)

/-! ## JSON.parse (fragment)

The related-products reconciler parses the curated metafield value, which the
spec fixes as a JSON list of comma-joined variant-identifier groups.  The
parser below models JSON.parse on the fragment the service exercises: the
scalar literals and flat arrays of scalars; string escapes are limited to
backslash-quote, backslash-backslash and backslash-slash.  Inputs outside the
fragment (nested structures, other escapes) are conservatively mapped to a
SyntaxError; every theorem that relies on a successful parse carries the parse
result as an explicit hypothesis, discharged on concrete inputs. -/

def jsonStrAux : List Char → Option (List Char × List Char)
  | [] => none
  | '"' :: rest => some ([], rest)
  | '\\' :: c :: rest =>
    if c = '"' || c = '\\' || c = '/' then
      (jsonStrAux rest).map (fun p => (c :: p.1, p.2))
    else none
  | c :: rest => (jsonStrAux rest).map (fun p => (c :: p.1, p.2))

def jsonNumAux (l : List Char) : Option (Q × List Char) :=
  let (neg, l1) := match l with | '-' :: r => (true, r) | r => (false, r)
  let (ip, ik, r1) := readDigits l1 0 0
  if ik = 0 then none
  else
    match r1 with
    | '.' :: r2 =>
      let (fp, fk, r3) := readDigits r2 0 0
      if fk = 0 then none else some (qOfParts neg (ip * 10 ^ fk + fp) fk false 0, r3)
    | _ => some (qOfParts neg ip 0 false 0, r1)

def jsonScalar : List Char → Option (JVal × List Char)
  | [] => none
  | '"' :: rest => (jsonStrAux rest).map (fun p => (JVal.str (String.mk p.1), p.2))
  | 't' :: 'r' :: 'u' :: 'e' :: rest => some (JVal.boolv true, rest)
  | 'f' :: 'a' :: 'l' :: 's' :: 'e' :: rest => some (JVal.boolv false, rest)
  | 'n' :: 'u' :: 'l' :: 'l' :: rest => some (JVal.null, rest)
  | l => (jsonNumAux l).map (fun p => (JVal.num p.1, p.2))

def skipWsL (l : List Char) : List Char := l.dropWhile isWsChar

def jsonArrItems : Nat → List Char → Option (List JVal × List Char)
  | 0, _ => none
  | Nat.succ fuel, l =>
    match jsonScalar (skipWsL l) with
    | none => none
    | some (v, rest) =>
      match skipWsL rest with
      | ',' :: r2 => (jsonArrItems fuel r2).map (fun p => (v :: p.1, p.2))
      | ']' :: r2 => some ([v], r2)
      | _ => none

def jsonParseChars (l : List Char) : Except JErr JVal :=
  match skipWsL l with
  | '[' :: r =>
    match skipWsL r with
    | ']' :: r2 => if skipWsL r2 = [] then .ok (JVal.arr []) else .error .synErr
    | r2 =>
      match jsonArrItems r2.length r2 with
      | some (vs, rest) => if skipWsL rest = [] then .ok (JVal.arr vs) else .error .synErr
      | none => .error .synErr
  | r =>
    match jsonScalar r with
    | some (v, rest) => if skipWsL rest = [] then .ok v else .error .synErr
    | none => .error .synErr

/-- JSON.parse applied to an arbitrary value first coerces it to a string.
Only the string case is exercised by the service (the metafield value and the
raw request body); the other cases are approximated by their JSON text, which
agrees with JavaScript for numbers, booleans and null. -/
def jsParseInput : JVal → List Char
  | .str s => s.data
  | .num q => (jsonStringifyQ q).data
  | .boolv b => if b then "true".data else "false".data
  | .null => "null".data
  | .undefined => "undefined".data
  | .arr _ => []
  | .obj _ => []

def jsonParseVal (v : JVal) : Except JErr JVal := jsonParseChars (jsParseInput v)

/-- String.prototype.split(',') on the characters of a string: comma-separated
pieces, with the empty string yielding one empty piece, as in JavaScript. -/
def splitCommaAux (acc : List Char) : List Char → List (List Char)
  | [] => [acc.reverse]
  | c :: cs => if c = ',' then acc.reverse :: splitCommaAux [] cs else splitCommaAux (c :: acc) cs

def jsSplitComma (s : String) : List String := (splitCommaAux [] s.data).map (fun l => String.mk l)

/-- The id => id.split(',') callback applied to one element of the parsed
metafield list: only strings have .split, every other element throws a
TypeError. -/
def splitElem : JVal → Except JErr (List String)
  | .str s => .ok (jsSplitComma s)
  | _ => .error .typeErr

/-! ## Outbound GraphQL requests and the reconciliation interpreter

handleProductUpdate (src/unnamed/part_002) is embedded as an interpreter over
an oracle that supplies the outcome of each successive client.request call: an
Except value that is either the response JVal or a thrown error (network
failure).  The interpreter returns the body's outcome together with the next
oracle index and the list of requests it issued, so theorems can speak about
exactly which mutations were sent.  Field names follow the source where Lean
allows; the metafield namespace field is called ns because namespace is a
Lean keyword. -/

structure Metafield where
  key : String
  ns : String
  ownerId : JVal
  type : String
  value : String

inductive Request where
  | productQuery (id : JVal)
  | variantsQuery (ids : List String)
  | reorder (collectionId : JVal) (moves : List Move)
  | metafieldsSet (metafields : List Metafield)

def Oracle : Type := Nat → Except JErr JVal

def M (α : Type) : Type := Nat → Except JErr α × Nat × List Request

def pureM (a : α) : M α := fun k => (.ok a, k, [])

def bindM (x : M α) (f : α → M β) : M β := fun k =>
  match x k with
  | (.error e, k2, t) => (.error e, k2, t)
  | (.ok a, k2, t) =>
    match f a k2 with
    | (r, k3, t2) => (r, k3, t ++ t2)

def liftE (e : Except JErr α) : M α := fun k => (e, k, [])

def requestM (ω : Oracle) (r : Request) : M JVal := fun k => (ω k, k + 1, [r])

/-- The try / catch (error) / console.error wrapper: any thrown error is
logged and swallowed, so the wrapped computation always returns normally. -/
def catchM (x : M α) : M Unit := fun k =>
  match x k with
  | (.error _, k2, t) => (.ok (), k2, t)
  | (.ok _, k2, t) => (.ok (), k2, t)

def forEachM (f : JVal → M Unit) : List JVal → M Unit
  | [] => pureM ()
  | c :: cs => bindM (f c) (fun _ => forEachM f cs)

/-- Extraction of one member of collection.node.products.edges: the accesses
product.node.id (from the position map and the identifier sequences) and
a.node.order?.value (from the comparator).  It throws exactly when the
JavaScript accesses would: when edge.node is null or undefined (or edge
itself is null or undefined). -/
def extractMember (edge : JVal) : Except JErr Member :=
  match jsGetE edge "node" with
  | .error e => .error e
  | .ok node =>
    match jsGetE node "id" with
    | .error e => .error e
    | .ok idv =>
      match jsGetE node "order" with
      | .error e => .error e
      | .ok ord => .ok ⟨idv, jsGetOpt ord "value"⟩

/-- collection.node.products.edges spread into an array and turned into
members. -/
def collMembers (node : JVal) : Except JErr (List Member) :=
  match getPath node ["products", "edges"] with
  | .error e => .error e
  | .ok pe =>
    match jsIterE pe with
    | .error e => .error e
    | .ok edges => edges.mapM extractMember

/-- One iteration of the collections loop: sort the members, build the moves,
skip when the stringified identifier sequences agree, otherwise issue the
collectionReorderProducts mutation and inspect userErrors of the response. -/
def processCollection (ω : Oracle) (c : JVal) : M Unit :=
  bindM (liftE (jsGetE c "node")) (fun node =>
  bindM (liftE (collMembers node)) (fun members =>
  let sorted := sortMembers members
  let moves := movesFromSorted sorted
  let prevOrder := members.map Member.id
  let newOrder := moves.map Move.id
  if jsonStringifyArr prevOrder = jsonStringifyArr newOrder then pureM ()
  else
    bindM (liftE (jsGetE node "id")) (fun cid =>
    bindM (requestM ω (.reorder cid moves)) (fun editResponse =>
    bindM (liftE (getPath editResponse ["data", "collectionReorderProducts", "userErrors"]))
      (fun ue =>
    bindM (liftE (jsLenE ue)) (fun _ => pureM ()))))))

/-- The for (const collection of response.data.product.collections.edges)
loop. -/
def collectionsPhase (ω : Oracle) (product : JVal) : M Unit :=
  bindM (liftE (getPath product ["collections", "edges"])) (fun ce =>
  bindM (liftE (jsIterE ce)) (fun cols =>
  forEachM (processCollection ω) cols))

/-- The related-products update: gated on a truthy
response.data.product.relatedProducts?.value and on the 4ee229 tenant, it
parses the metafield value, splits the comma-joined groups, resolves the
variants through one productVariants query, and writes the resolved parent
product ids with one metafieldsSet mutation. -/
def processRelated (ω : Oracle) (product : JVal) (shop : String) : M Unit :=
  bindM (liftE (jsGetE product "relatedProducts")) (fun rp =>
  let v := jsGetOpt rp "value"
  if jsTruthy v && shop == "4ee229.myshopify.com" then
    bindM (liftE (jsonParseVal v)) (fun parsed =>
    bindM (liftE (jsArrE parsed)) (fun elems =>
    bindM (liftE (elems.mapM splitElem)) (fun groups =>
    let relatedVariantIds := groups.flatten
    bindM (requestM ω (.variantsQuery relatedVariantIds)) (fun relatedVariants =>
    bindM (liftE (getPath relatedVariants ["data", "productVariants", "edges"])) (fun ve =>
    bindM (liftE (jsIterE ve)) (fun vedges =>
    bindM (liftE (vedges.mapM (fun e => getPath e ["node", "product", "id"]))) (fun pids =>
    bindM (liftE (jsGetE product "id")) (fun ownerId =>
    bindM (requestM ω (.metafieldsSet
        [⟨"related_products", "shopify--discovery--product_recommendation", ownerId,
          "list.product_reference", jsonStringifyArr pids⟩])) (fun mresp =>
    bindM (liftE (getPath mresp ["data", "metafieldsSet", "userErrors"])) (fun ue =>
    bindM (liftE (jsLenE ue)) (fun _ => pureM ())))))))))))
  else pureM ())

/-- The body of handleProductUpdate's try block: fetch the product, run the
collections loop, then the related-products update. -/
def hpuBody (ω : Oracle) (idv : JVal) (shop : String) : M Unit :=
  bindM (requestM ω (.productQuery idv)) (fun response =>
  bindM (liftE (getPath response ["data", "product"])) (fun product =>
  bindM (collectionsPhase ω product) (fun _ =>
  processRelated ω product shop)))

/-- async function handleProductUpdate(id, shop): the whole body runs inside
one try block whose catch logs the error and returns. -/
def handleProductUpdate (ω : Oracle) (idv : JVal) (shop : String) : M Unit :=
  catchM (hpuBody ω idv shop)

/-! ## The POST /webhooks HTTP handlers -/

/-- Outcome of one request to a webhook route: the HTTP status sent, and the
argument pair of the detached handleProductUpdate dispatch when one was
started (the parsed body's id field and the shop header). -/
structure RouteResult where
  status : Nat
  dispatched : Option (JVal × Option String)

/-- Buffer.toString followed by JSON.parse on the raw body bytes.  The byte
to character mapping is the identity, which matches Buffer.toString('utf8')
on ASCII bodies; no theorem below depends on a non-ASCII body. -/
def bodyJsonParse (body : List Nat) : Except JErr JVal :=
  jsonParseChars (body.map Char.ofNat)

/-- The switch (shop) of the multi-tenant handler (src/unnamed/part_002):
known domains select their SHOPIFY_WEBHOOK_AUTH environment value (itself
possibly absent), every other domain leaves sig undefined. -/
def tenantWebhookSecret (envPuk envTrade : Option String) (shop : Option String) :
    Option String :=
  match shop with
  | some "4ee229.myshopify.com" => envPuk
  | some "trade4x4.myshopify.com" => envTrade
  | _ => none

/-- app.post('/webhooks') of src/unnamed/part_002: resolve the tenant secret
from the shop-domain header, verify the signature (a thrown error reaches the
catch and answers 500), answer 401 on a failed check, otherwise parse the body
and dispatch handleProductUpdate(data.id, shop) without awaiting it. -/
def webhooksRoute (envPuk envTrade : Option String) (shopHeader hmacHeader : Option String)
    (body : List Nat) : RouteResult :=
  let sig := tenantWebhookSecret envPuk envTrade shopHeader
  match validateWebhook body hmacHeader sig with
  | .error _ => ⟨500, none⟩
  | .ok false => ⟨401, none⟩
  | .ok true =>
    match bodyJsonParse body with
    | .error _ => ⟨500, none⟩
    | .ok data =>
      match jsGetE data "id" with
      | .error _ => ⟨500, none⟩
      | .ok idv => ⟨200, some (idv, shopHeader)⟩

/-- The named exports of src/helpers/index.js.  The module has no default
export. -/
def helpersModuleExportNames : List String := ["validateWebhook"]

def helpersDefaultExportExists : Bool := helpersModuleExportNames.contains "default"

/-- The verification call of the single-tenant variant (src/index.js): the
file imports the helper module's default export, which does not exist, so the
imported binding is undefined and calling it throws a TypeError.  Were the
binding instead resolved to the named validateWebhook, the call still passes
only two arguments, leaving sig undefined, so createHmac throws a TypeError
as well. -/
def singleTenantVerify (body : List Nat) (hmacHeader : Option String) : Except JErr Bool :=
  if helpersDefaultExportExists then validateWebhook body hmacHeader none
  else .error .typeErr

/-- app.post('/webhooks') of src/index.js. -/
def webhooksRouteSingle (hmacHeader : Option String) (body : List Nat) : RouteResult :=
  match singleTenantVerify body hmacHeader with
  | .error _ => ⟨500, none⟩
  | .ok false => ⟨401, none⟩
  | .ok true =>
    match bodyJsonParse body with
    | .error _ => ⟨500, none⟩
    | .ok data =>
      match jsGetE data "id" with
      | .error _ => ⟨500, none⟩
      | .ok idv => ⟨200, some (idv, none)⟩

/-! ## Specification-side definitions

specSortByZero renders the spec's sentence for the desired order: stable-sort
the members by numeric order value ascending where a missing or non-numeric
value is treated as 0.  It is compared against the source-derived sortMembers
in the C4 theorems. -/

/-- The spec's sort key: the numeric order value, with missing and
non-numeric values both treated as 0. -/
def specKeyZero (m : Member) : Q := (memberKey m).getD ⟨0, 1⟩

def specSortByZero (l : List Member) : List Member :=
  jsArraySort (fun a b => qle (specKeyZero a) (specKeyZero b)) l

def specMovesOf (l : List Member) : List Move := movesFromSorted (specSortByZero l)

/-! ## Request classification for the frame property -/

/-- A request of the reconciliation pass as C8 allows it: any query, the
collection reorder mutation, or a metafieldsSet whose every entry targets the
related_products key of the product-recommendation namespace. -/
def reqOK : Request → Bool
  | .metafieldsSet mfs =>
    mfs.all (fun mf =>
      mf.key == "related_products" && mf.ns == "shopify--discovery--product_recommendation")
  | _ => true

/-- A request that would write the per-product order metafield
(namespace custom, key product_order). -/
def writesProductOrder : Request → Bool
  | .metafieldsSet mfs => mfs.any (fun mf => mf.ns == "custom" && mf.key == "product_order")
  | _ => false

/-! ## Concrete inputs used by counterexamples and witnesses -/

/-- Product-identifier text of a move list, used to compare concrete sort
outcomes without equality on JVal. -/
def moveIdStrs (ms : List Move) : List String :=
  ms.map (fun m => match m.id with | .str s => s | _ => "")

/-- Members of the claim C4 scenario: order values "2", "1" and a missing
value. -/
def exMembers : List Member := [⟨.str "p1", .str "2"⟩, ⟨.str "p2", .str "1"⟩, ⟨.str "p3", .undefined⟩]

/-- Members with one numeric and one non-numeric order value, where treating
the non-numeric value as 0 and treating it as a universal tie disagree. -/
def mmMembers : List Member := [⟨.str "p1", .str "5"⟩, ⟨.str "p2", .str "x"⟩]

/-- A product response whose collections edges list is null (so the
collections loop throws when iterating it) while the related-products
metafield holds a perfectly parseable value. -/
def productC3 : JVal :=
  .obj [("id", .str "gid-product-1"),
        ("relatedProducts", .obj [("value", .str "[\"11,12\",\"13\"]")]),
        ("collections", .obj [("edges", JVal.null)])]

def prodRespC3 : JVal := .obj [("data", .obj [("product", productC3)])]

/-- A well-formed productVariants response resolving three variants to the
parent products A, A and B. -/
def variantsResp : JVal :=
  .obj [("data", .obj [("productVariants", .obj [("edges", .arr
    [.obj [("node", .obj [("product", .obj [("id", .str "A")])])],
     .obj [("node", .obj [("product", .obj [("id", .str "A")])])],
     .obj [("node", .obj [("product", .obj [("id", .str "B")])])]])])])]

/-- A well-formed metafieldsSet response with no user errors. -/
def mfResp : JVal := .obj [("data", .obj [("metafieldsSet", .obj [("userErrors", .arr [])])])]

/-- Oracle for the C3 run: the product fetch answers prodRespC3, the next
request (the variants query, were it ever issued) answers variantsResp, and
anything after answers mfResp. -/
def omega3 : Oracle := fun k =>
  if k = 0 then .ok prodRespC3 else if k = 1 then .ok variantsResp else .ok mfResp

def collInOrderNode : JVal :=
  .obj [("id", .str "gid-coll-1"),
        ("products", .obj [("edges", .arr
          [.obj [("node", .obj [("id", .str "p1"), ("order", .obj [("value", .str "1")])])],
           .obj [("node", .obj [("id", .str "p2"), ("order", .obj [("value", .str "2")])])]])])]

/-- A collection whose two members already sit in order-metafield order. -/
def collInOrder : JVal := .obj [("node", collInOrderNode)]

def collInOrderMembers : List Member :=
  [⟨.str "p1", .str "1"⟩, ⟨.str "p2", .str "2"⟩]

/-- A product carrying a truthy, parseable related-products value, used to
exercise the related-products step on its own. -/
def productRel : JVal :=
  .obj [("id", .str "gid-product-1"),
        ("relatedProducts", .obj [("value", .str "[\"11,12\",\"13\"]")])]

/-- The body bytes of the two-character payload left brace right brace. -/
def demoBody : List Nat := [123, 125]

/-- demoBody with its second byte changed. -/
def demoBodyFlip : List Nat := [123, 126]

/-- Base64 HMAC-SHA256 of demoBody under the secret sekrit, as a header
string; the C2 theorems verify this equality by evaluation. -/
def demoHmacHeader : String := "sEucRZ3rf7ITUcNx6hFS/tntw+ZXCy3Yt51vbJ60WG0="

/-- A 44-character header that is not the HMAC of demoBody under sekrit. -/
def wrongHmacHeader : String := "AAAAAAAAAAAAAAAAAAAAAAAAAAAAAAAAAAAAAAAAAAA="

/-! ## Lemmas about the stable sort -/

theorem jsSortInsert_adj {α : Type} (le : α → α → Bool)
    (htot : ∀ a b, le a b = false → le b a = true) (x : α) :
    ∀ l, adjSorted le l = true → adjSorted le (jsSortInsert le x l) = true := by
  intro l
  induction l with
  | nil => intro _; rfl
  | cons y ys ih =>
    intro h
    by_cases hxy : le x y = true
    · simpa [jsSortInsert, hxy, adjSorted] using h
    · have hxy2 : le x y = false := by simpa using hxy
      have hyx := htot x y hxy2
      cases ys with
      | nil => simp [jsSortInsert, hxy2, adjSorted, hyx]
      | cons z zs =>
        have hyz : le y z = true := by
          have := h
          simp [adjSorted] at this
          exact this.1
        have hzzs : adjSorted le (z :: zs) = true := by
          have := h
          simp only [adjSorted, Bool.and_eq_true] at this
          exact this.2
        have hrec := ih hzzs
        by_cases hxz : le x z = true
        · have hgoal : jsSortInsert le x (y :: z :: zs) = y :: x :: z :: zs := by
            simp [jsSortInsert, hxy2, hxz]
          rw [hgoal]
          simp [adjSorted, hyx, hxz, hzzs]
        · have hxz2 : le x z = false := by simpa using hxz
          have hgoal : jsSortInsert le x (y :: z :: zs) = y :: z :: jsSortInsert le x zs := by
            simp [jsSortInsert, hxy2, hxz2]
          rw [hgoal]
          have hrec2 : adjSorted le (z :: jsSortInsert le x zs) = true := by
            simpa [jsSortInsert, hxz2] using hrec
          simp [adjSorted, hyz, hrec2]

theorem jsArraySort_adj {α : Type} (le : α → α → Bool)
    (htot : ∀ a b, le a b = false → le b a = true) :
    ∀ l, adjSorted le (jsArraySort le l) = true := by
  intro l
  induction l with
  | nil => rfl
  | cons x xs ih => exact jsSortInsert_adj le htot x _ ih

theorem jsArraySort_fix {α : Type} (le : α → α → Bool) :
    ∀ l, adjSorted le l = true → jsArraySort le l = l := by
  intro l
  induction l with
  | nil => intro _; rfl
  | cons x xs ih =>
    intro h
    cases xs with
    | nil => rfl
    | cons y ys =>
      have hxy : le x y = true := by
        have := h
        simp [adjSorted] at this
        exact this.1
      have hys : adjSorted le (y :: ys) = true := by
        have := h
        simp only [adjSorted, Bool.and_eq_true] at this
        exact this.2
      show jsSortInsert le x (jsArraySort le (y :: ys)) = x :: y :: ys
      rw [ih hys]
      simp [jsSortInsert, hxy]

theorem jsArraySort_idem {α : Type} (le : α → α → Bool)
    (htot : ∀ a b, le a b = false → le b a = true) (l : List α) :
    jsArraySort le (jsArraySort le l) = jsArraySort le l :=
  jsArraySort_fix le _ (jsArraySort_adj le htot l)

theorem cmpLe_total : ∀ a b, cmpLe a b = false → cmpLe b a = true := by
  intro a b
  unfold cmpLe
  cases ha : memberKey a <;> cases hb : memberKey b <;> (simp [qle]; try omega)

theorem sortMembers_idem (l : List Member) : sortMembers (sortMembers l) = sortMembers l :=
  jsArraySort_idem cmpLe cmpLe_total l

theorem jsSortInsert_mem {α : Type} (le : α → α → Bool) (x : α) :
    ∀ l (a : α), a ∈ jsSortInsert le x l ↔ a = x ∨ a ∈ l := by
  intro l
  induction l with
  | nil => intro a; simp [jsSortInsert]
  | cons y ys ih =>
    intro a
    by_cases hxy : le x y = true
    · simp [jsSortInsert, hxy]
    · have hxy2 : le x y = false := by simpa using hxy
      simp [jsSortInsert, hxy2, ih a]
      tauto

theorem jsArraySort_mem {α : Type} (le : α → α → Bool) :
    ∀ l (a : α), a ∈ jsArraySort le l ↔ a ∈ l := by
  intro l
  induction l with
  | nil => intro a; simp [jsArraySort]
  | cons x xs ih =>
    intro a
    show a ∈ jsSortInsert le x (jsArraySort le xs) ↔ _
    rw [jsSortInsert_mem le x _ a]
    simp [ih a]

theorem jsSortInsert_congr {α : Type} (le1 le2 : α → α → Bool) (x : α) :
    ∀ l, (∀ b ∈ l, le1 x b = le2 x b) → jsSortInsert le1 x l = jsSortInsert le2 x l := by
  intro l
  induction l with
  | nil => intro _; rfl
  | cons y ys ih =>
    intro h
    have hy : le1 x y = le2 x y := h y (by simp)
    by_cases hxy : le2 x y = true
    · simp [jsSortInsert, hxy, hy ▸ hxy]
    · have hxy2 : le2 x y = false := by simpa using hxy
      have hxy1 : le1 x y = false := hy.trans hxy2
      simp only [jsSortInsert, hxy1, hxy2, Bool.false_eq_true, if_false]
      rw [ih (fun b hb => h b (by simp [hb]))]

theorem jsArraySort_congr {α : Type} (le1 le2 : α → α → Bool) :
    ∀ l, (∀ a ∈ l, ∀ b ∈ l, le1 a b = le2 a b) → jsArraySort le1 l = jsArraySort le2 l := by
  intro l
  induction l with
  | nil => intro _; rfl
  | cons x xs ih =>
    intro h
    show jsSortInsert le1 x (jsArraySort le1 xs) = jsSortInsert le2 x (jsArraySort le2 xs)
    rw [ih (fun a ha b hb => h a (by simp [ha]) b (by simp [hb]))]
    exact jsSortInsert_congr le1 le2 x _ (fun b hb =>
      h x (by simp) b (by simp [(jsArraySort_mem le2 xs b).mp hb]))

theorem jsSortInsert_length {α : Type} (le : α → α → Bool) (x : α) :
    ∀ l, (jsSortInsert le x l).length = l.length + 1 := by
  intro l
  induction l with
  | nil => rfl
  | cons y ys ih =>
    by_cases hxy : le x y = true
    · simp [jsSortInsert, hxy]
    · have hxy2 : le x y = false := by simpa using hxy
      simp [jsSortInsert, hxy2, ih]

theorem jsArraySort_length {α : Type} (le : α → α → Bool) :
    ∀ l : List α, (jsArraySort le l).length = l.length := by
  intro l
  induction l with
  | nil => rfl
  | cons x xs ih =>
    show (jsSortInsert le x (jsArraySort le xs)).length = xs.length + 1
    rw [jsSortInsert_length, ih]

theorem movesGo_ids : ∀ (i : Nat) (l : List Member), (movesGo i l).map Move.id = l.map Member.id := by
  intro i l
  induction l generalizing i with
  | nil => rfl
  | cons m ms ih => simp [movesGo, ih]

theorem movesGo_positions : ∀ (i : Nat) (l : List Member),
    (movesGo i l).map Move.newPosition = (List.range l.length).map (fun j => toString (i + j + 1)) := by
  intro i l
  induction l generalizing i with
  | nil => rfl
  | cons m ms ih =>
    simp only [movesGo, List.map_cons, List.length_cons, List.range_succ_eq_map, ih (i + 1),
      List.map_map, Nat.add_zero]
    congr 1
    apply List.map_congr_left
    intro j _
    have harith : i + 1 + j + 1 = i + (j + 1) + 1 := by omega
    simp [Function.comp, harith]

/-! ## Lemmas about the interpreter monad -/

theorem bindM_liftE_ok {α β : Type} (a : α) (f : α → M β) (k : Nat) :
    bindM (liftE (.ok a)) f k = f a k := by
  unfold bindM liftE
  rcases hfa : f a k with ⟨r, k3, t2⟩
  simp [hfa]

theorem bindM_liftE_error {α β : Type} (e : JErr) (f : α → M β) (k : Nat) :
    bindM (liftE (.error e)) f k = (.error e, k, []) := rfl

theorem bindM_requestM_ok {β : Type} (ω : Oracle) (r : Request) (f : JVal → M β) (k : Nat)
    (v : JVal) (h : ω k = .ok v) :
    bindM (requestM ω r) f k =
      ((f v (k + 1)).1, (f v (k + 1)).2.1, r :: (f v (k + 1)).2.2) := by
  unfold bindM requestM
  rw [h]
  rcases hf2 : f v (k + 1) with ⟨r2, k3, t2⟩
  simp [hf2]

theorem bindM_requestM_error {β : Type} (ω : Oracle) (r : Request) (f : JVal → M β) (k : Nat)
    (e : JErr) (h : ω k = .error e) :
    bindM (requestM ω r) f k = (.error e, k + 1, [r]) := by
  unfold bindM requestM
  rw [h]

theorem bindM_trace_noReq {α β : Type} (x : M α) (f : α → M β) (k : Nat)
    (hx : (x k).2.2 = []) (hf : ∀ a k2, (f a k2).2.2 = []) :
    (bindM x f k).2.2 = [] := by
  unfold bindM
  rcases hxk : x k with ⟨r, k2, t⟩
  rw [hxk] at hx
  simp at hx
  cases r with
  | error e => simpa using hx
  | ok a =>
    rcases hfk : f a k2 with ⟨r2, k3, t2⟩
    have ht2 := hf a k2
    rw [hfk] at ht2
    simp at ht2
    simp [hfk, hx, ht2]

theorem bindM_requestM_trace_noReq {β : Type} (ω : Oracle) (r : Request) (f : JVal → M β)
    (k : Nat) (hf : ∀ v k2, (f v k2).2.2 = []) :
    (bindM (requestM ω r) f k).2.2 = [r] := by
  unfold bindM requestM
  cases hk : ω k with
  | error e => rfl
  | ok v =>
    rcases hfk : f v (k + 1) with ⟨r2, k3, t2⟩
    have ht2 := hf v (k + 1)
    rw [hfk] at ht2
    simp at ht2
    simp [hfk, ht2]

theorem bindM_all {p : Request → Bool} {α β : Type} {x : M α} {f : α → M β}
    (hx : ∀ k, ((x k).2.2).all p = true) (hf : ∀ a k, ((f a k).2.2).all p = true) :
    ∀ k, ((bindM x f k).2.2).all p = true := by
  intro k
  have hx1 := hx k
  unfold bindM
  rcases hxk : x k with ⟨r, k2, t⟩
  rw [hxk] at hx1
  cases r with
  | error e => simpa using hx1
  | ok a =>
    have hf1 := hf a k2
    rcases hfk : f a k2 with ⟨r2, k3, t2⟩
    rw [hfk] at hf1
    simp only [hfk]
    rw [List.all_append]
    simp at hx1 hf1 ⊢
    exact ⟨hx1, hf1⟩

theorem liftE_all {p : Request → Bool} {α : Type} (e : Except JErr α) :
    ∀ k, (((liftE e) k).2.2).all p = true := by
  intro k; rfl

theorem pureM_all {p : Request → Bool} {α : Type} (a : α) :
    ∀ k, (((pureM a) k).2.2).all p = true := by
  intro k; rfl

theorem requestM_all {p : Request → Bool} (ω : Oracle) (r : Request) (hp : p r = true) :
    ∀ k, (((requestM ω r) k).2.2).all p = true := by
  intro k
  simp [requestM, hp]

theorem forEachM_all {p : Request → Bool} {f : JVal → M Unit}
    (hf : ∀ c k, ((f c k).2.2).all p = true) :
    ∀ l k, ((forEachM f l k).2.2).all p = true := by
  intro l
  induction l with
  | nil => intro k; rfl
  | cons c cs ih => exact bindM_all (hf c) (fun _ => ih)

theorem catchM_all {p : Request → Bool} {α : Type} {x : M α}
    (hx : ∀ k, ((x k).2.2).all p = true) :
    ∀ k, ((catchM x k).2.2).all p = true := by
  intro k
  have hx1 := hx k
  unfold catchM
  rcases hxk : x k with ⟨r, k2, t⟩
  rw [hxk] at hx1
  cases r with
  | error e => simpa using hx1
  | ok a => simpa using hx1

/-! ## Every request the reconciliation pass issues is an allowed one -/

theorem processCollection_all (ω : Oracle) (c : JVal) :
    ∀ k, ((processCollection ω c k).2.2).all reqOK = true := by
  unfold processCollection
  refine bindM_all (liftE_all _) ?_
  intro node
  refine bindM_all (liftE_all _) ?_
  intro members
  dsimp only
  by_cases hc : jsonStringifyArr (members.map Member.id) =
      jsonStringifyArr ((movesFromSorted (sortMembers members)).map Move.id)
  · simp only [hc, if_true, ite_true]
    exact pureM_all ()
  · simp only [hc, if_false, ite_false]
    refine bindM_all (liftE_all _) ?_
    intro cid
    refine bindM_all (requestM_all ω _ rfl) ?_
    intro editResponse
    refine bindM_all (liftE_all _) ?_
    intro ue
    refine bindM_all (liftE_all _) ?_
    intro _
    exact pureM_all ()

theorem processRelated_all (ω : Oracle) (product : JVal) (shop : String) :
    ∀ k, ((processRelated ω product shop k).2.2).all reqOK = true := by
  unfold processRelated
  refine bindM_all (liftE_all _) ?_
  intro rp
  dsimp only
  by_cases hc : (jsTruthy (jsGetOpt rp "value") && shop == "4ee229.myshopify.com") = true
  · simp only [hc, if_true, ite_true]
    refine bindM_all (liftE_all _) ?_
    intro parsed
    refine bindM_all (liftE_all _) ?_
    intro elems
    refine bindM_all (liftE_all _) ?_
    intro groups
    refine bindM_all (requestM_all ω _ rfl) ?_
    intro relatedVariants
    refine bindM_all (liftE_all _) ?_
    intro ve
    refine bindM_all (liftE_all _) ?_
    intro vedges
    refine bindM_all (liftE_all _) ?_
    intro pids
    refine bindM_all (liftE_all _) ?_
    intro ownerId
    refine bindM_all (requestM_all ω _ (by rfl)) ?_
    intro mresp
    refine bindM_all (liftE_all _) ?_
    intro ue
    refine bindM_all (liftE_all _) ?_
    intro _
    exact pureM_all ()
  · have hc2 : (jsTruthy (jsGetOpt rp "value") && shop == "4ee229.myshopify.com") = false := by
      simpa using hc
    simp only [hc2, if_false, ite_false]
    exact pureM_all ()

theorem collectionsPhase_all (ω : Oracle) (product : JVal) :
    ∀ k, ((collectionsPhase ω product k).2.2).all reqOK = true := by
  unfold collectionsPhase
  refine bindM_all (liftE_all _) ?_
  intro ce
  refine bindM_all (liftE_all _) ?_
  intro cols
  exact forEachM_all (fun c => processCollection_all ω c) cols

theorem hpuBody_all (ω : Oracle) (idv : JVal) (shop : String) :
    ∀ k, ((hpuBody ω idv shop k).2.2).all reqOK = true := by
  unfold hpuBody
  refine bindM_all (requestM_all ω _ rfl) ?_
  intro resp
  refine bindM_all (liftE_all _) ?_
  intro product
  refine bindM_all (collectionsPhase_all ω product) ?_
  intro _
  exact processRelated_all ω product shop

theorem handleProductUpdate_all (ω : Oracle) (idv : JVal) (shop : String) :
    ∀ k, ((handleProductUpdate ω idv shop k).2.2).all reqOK = true :=
  catchM_all (hpuBody_all ω idv shop)

theorem reqOK_no_productOrder_write (r : Request) (h : reqOK r = true) :
    writesProductOrder r = false := by
  cases r with
  | metafieldsSet mfs =>
    simp only [reqOK, List.all_eq_true] at h
    simp only [writesProductOrder]
    by_contra habs
    rw [Bool.not_eq_false, List.any_eq_true] at habs
    obtain ⟨mf, hmf, hbad⟩ := habs
    have hgood := h mf hmf
    simp at hgood hbad
    rw [hgood.1] at hbad
    exact absurd hbad.2 (by decide)
  | productQuery idv => rfl
  | variantsQuery ids => rfl
  | reorder cid moves => rfl

/-! ## Claim theorems -/

set_option maxRecDepth 8000

theorem validateWebhook_some (body : List Nat) (h s : String) :
    validateWebhook body (some h) (some s) =
      if (hmacSha256Base64 (utf8Bytes s) body).length = (utf8Bytes h).length then
        .ok (decide (hmacSha256Base64 (utf8Bytes s) body = utf8Bytes h))
      else .error .rangeErr := rfl

/-- C1 counterexample: validateWebhook does throw.  With an empty header
string (byte length 0, different from the 44-byte computed base64 HMAC)
crypto.timingSafeEqual raises a RangeError instead of returning false; with a
missing header Buffer.from(undefined) raises a TypeError; with a missing
secret createHmac raises a TypeError.  The claim says all these cases return
false and never throw. -/
theorem C1_counterexample_throws :
    validateWebhook [] (some "") (some "") = .error .rangeErr ∧
    validateWebhook [] none (some "") = .error .typeErr ∧
    validateWebhook [] (some "x") none = .error .typeErr := by
  refine ⟨by rfl, rfl, rfl⟩

/-- C1 (amended): validateWebhook returns false exactly on a content mismatch
between a header and a computed HMAC of equal byte length; it throws — rather
than returning false — a TypeError when the secret or the header is missing,
and a RangeError when the header byte length differs from that of the
computed base64 HMAC. -/
theorem C1_validateWebhook_amended :
    ∀ (body : List Nat) (hmacHeader sig : Option String),
      (sig = none → validateWebhook body hmacHeader sig = .error .typeErr) ∧
      (∀ s, sig = some s → hmacHeader = none →
        validateWebhook body hmacHeader sig = .error .typeErr) ∧
      (∀ s h, sig = some s → hmacHeader = some h →
        (utf8Bytes h).length ≠ (hmacSha256Base64 (utf8Bytes s) body).length →
        validateWebhook body hmacHeader sig = .error .rangeErr) ∧
      (∀ s h, sig = some s → hmacHeader = some h →
        (utf8Bytes h).length = (hmacSha256Base64 (utf8Bytes s) body).length →
        utf8Bytes h ≠ hmacSha256Base64 (utf8Bytes s) body →
        validateWebhook body hmacHeader sig = .ok false) := by
  intro body hmacHeader sig
  refine ⟨?_, ?_, ?_, ?_⟩
  · intro hs
    subst hs
    rfl
  · intro s hs hh
    subst hs
    subst hh
    rfl
  · intro s h hs hh hne
    subst hs
    subst hh
    rw [validateWebhook_some, if_neg (fun heq => hne heq.symm)]
  · intro s h hs hh hlen hne
    subst hs
    subst hh
    rw [validateWebhook_some, if_pos hlen.symm, decide_eq_false (fun heq => hne heq.symm)]

theorem C1_validateWebhook_amended_witness :
    validateWebhook [1] (some "x") none = .error .typeErr ∧
    validateWebhook [1] none (some "sekrit") = .error .typeErr ∧
    validateWebhook [2] (some "ab") (some "k") = .error .rangeErr ∧
    validateWebhook demoBody (some wrongHmacHeader) (some "sekrit") = .ok false :=
  ⟨(C1_validateWebhook_amended [1] (some "x") none).1 rfl,
   (C1_validateWebhook_amended [1] none (some "sekrit")).2.1 "sekrit" rfl rfl,
   (C1_validateWebhook_amended [2] (some "ab") (some "k")).2.2.1 "k" "ab" rfl rfl (by decide),
   (C1_validateWebhook_amended demoBody (some wrongHmacHeader) (some "sekrit")).2.2.2 "sekrit"
     wrongHmacHeader rfl rfl (by decide) (by decide)⟩

/-- C2: for a fixed secret and body, validateWebhook returns true exactly when
the signature header is byte-for-byte the base64 HMAC-SHA256 of those body
bytes under that secret; changing the signature to any other byte sequence
stops it returning true, and at the concrete witness input a single-byte body
change flips the result to false. -/
theorem C2_verify_iff :
    (∀ (body : List Nat) (h s : String),
      validateWebhook body (some h) (some s) = .ok true ↔
        utf8Bytes h = hmacSha256Base64 (utf8Bytes s) body) ∧
    (∀ (body : List Nat) (h h2 s : String),
      validateWebhook body (some h) (some s) = .ok true →
      utf8Bytes h2 ≠ utf8Bytes h →
      validateWebhook body (some h2) (some s) ≠ .ok true) ∧
    validateWebhook demoBody (some demoHmacHeader) (some "sekrit") = .ok true ∧
    validateWebhook demoBodyFlip (some demoHmacHeader) (some "sekrit") = .ok false := by
  have hiff : ∀ (body : List Nat) (h s : String),
      validateWebhook body (some h) (some s) = .ok true ↔
        utf8Bytes h = hmacSha256Base64 (utf8Bytes s) body := by
    intro body h s
    rw [validateWebhook_some]
    by_cases hlen : (hmacSha256Base64 (utf8Bytes s) body).length = (utf8Bytes h).length
    · rw [if_pos hlen]
      constructor
      · intro hok
        simp only [Except.ok.injEq] at hok
        exact (of_decide_eq_true hok).symm
      · intro heq
        rw [← heq]
        simp
    · rw [if_neg hlen]
      constructor
      · intro habs
        exact absurd habs (by simp)
      · intro heq
        exact absurd (congrArg List.length heq.symm) hlen
  refine ⟨hiff, ?_, by rfl, by rfl⟩
  intro body h h2 s hok hne habs
  have h1 := (hiff body h s).mp hok
  have h2e := (hiff body h2 s).mp habs
  exact hne (h2e.trans h1.symm)

theorem C2_verify_iff_witness :
    validateWebhook demoBody (some wrongHmacHeader) (some "sekrit") ≠ .ok true :=
  C2_verify_iff.2.1 demoBody demoHmacHeader wrongHmacHeader "sekrit" C2_verify_iff.2.2.1
    (by decide)

/-- C9: for every oracle outcome of the outbound GraphQL calls, including
thrown transport errors and responses of the wrong shape, handleProductUpdate
catches the error inside its own try block and returns normally; it never
raises to its caller. -/
theorem C9_handleProductUpdate_never_raises :
    ∀ (ω : Oracle) (idv : JVal) (shop : String) (k : Nat),
      (handleProductUpdate ω idv shop k).1 = .ok () := by
  intro ω idv shop k
  unfold handleProductUpdate catchM
  rcases hx : hpuBody ω idv shop k with ⟨r, k2, t⟩
  cases r <;> rfl

/-- C10: in the single-tenant variant (src/index.js) the verification call
always throws — the default import of the helper module is undefined because
the module only has the named export validateWebhook, and even the named
function called with only two arguments leaves the secret undefined, making
createHmac throw — so every POST /webhooks request is answered 500 and no
request dispatches a reconciliation. -/
theorem C10_singleTenant_always_500 :
    ∀ (hmacHeader : Option String) (body : List Nat),
      helpersDefaultExportExists = false ∧
      singleTenantVerify body hmacHeader = .error .typeErr ∧
      validateWebhook body hmacHeader none = .error .typeErr ∧
      webhooksRouteSingle hmacHeader body = ⟨500, none⟩ := by
  intro h b
  exact ⟨rfl, rfl, rfl, rfl⟩

theorem movesFromSorted_ids (l : List Member) :
    (movesFromSorted l).map Move.id = l.map Member.id := movesGo_ids 0 l

/-- C3 counterexample: the two reconciliation steps do not have separate
failure boundaries.  With omega3 the fetched product carries a truthy,
parseable related-products value, yet its collections edges value is null, so
the collections loop throws; the run's whole trace is the single product
query — the related-products step never ran — although running the
related-products step by itself over the same product and oracle tail would
have issued its variants query and metafieldsSet write. -/
theorem C3_counterexample_no_isolation :
    (hpuBody omega3 (.str "1") "4ee229.myshopify.com" 0).1 = .error .typeErr ∧
    (handleProductUpdate omega3 (.str "1") "4ee229.myshopify.com" 0).2.2 =
      [Request.productQuery (JVal.str "1")] ∧
    jsGetE productC3 "relatedProducts" = .ok (.obj [("value", .str "[\"11,12\",\"13\"]")]) ∧
    jsTruthy (jsGetOpt (.obj [("value", .str "[\"11,12\",\"13\"]")]) "value") = true ∧
    (processRelated omega3 productC3 "4ee229.myshopify.com" 1).2.2 =
      [Request.variantsQuery ["11", "12", "13"],
       Request.metafieldsSet [⟨"related_products", "shopify--discovery--product_recommendation",
         .str "gid-product-1", "list.product_reference", "[\"A\",\"A\",\"B\"]"⟩]] :=
  ⟨rfl, rfl, rfl, rfl, rfl⟩

/-- C3 (amended): both reconciliation steps run inside the one try block of
handleProductUpdate, which logs and suppresses every error, so the function
never raises; a failure in the related-products step cannot undo or affect
the already-completed collection-order step, whose requests stay in the
trace; but a thrown error during the collections phase prevents the
related-products step from running at all. -/
theorem C3_single_failure_boundary :
    (∀ (ω : Oracle) (idv : JVal) (shop : String) (k : Nat),
      (handleProductUpdate ω idv shop k).1 = .ok ()) ∧
    (∀ (ω : Oracle) (product : JVal) (shop : String) (k : Nat) (e : JErr),
      (collectionsPhase ω product k).1 = .error e →
      bindM (collectionsPhase ω product) (fun _ => processRelated ω product shop) k =
        (.error e, (collectionsPhase ω product k).2.1, (collectionsPhase ω product k).2.2)) ∧
    (∀ (ω : Oracle) (product : JVal) (shop : String) (k : Nat) (u : Unit),
      (collectionsPhase ω product k).1 = .ok u →
      (bindM (collectionsPhase ω product) (fun _ => processRelated ω product shop) k).2.2 =
        (collectionsPhase ω product k).2.2 ++
          (processRelated ω product shop (collectionsPhase ω product k).2.1).2.2) := by
  refine ⟨?_, ?_, ?_⟩
  · intro ω idv shop k
    unfold handleProductUpdate catchM
    rcases hx : hpuBody ω idv shop k with ⟨r, k2, t⟩
    cases r <;> rfl
  · intro ω product shop k e hcoll
    unfold bindM
    rcases hc : collectionsPhase ω product k with ⟨r, k2, t⟩
    rw [hc] at hcoll
    simp at hcoll
    rw [hcoll]
  · intro ω product shop k u hcoll
    unfold bindM
    rcases hc : collectionsPhase ω product k with ⟨r, k2, t⟩
    rw [hc] at hcoll
    simp at hcoll
    rw [hcoll]

theorem C3_single_failure_boundary_witness :
    bindM (collectionsPhase omega3 productC3)
        (fun _ => processRelated omega3 productC3 "4ee229.myshopify.com") 0 =
      (.error .typeErr, (collectionsPhase omega3 productC3 0).2.1,
        (collectionsPhase omega3 productC3 0).2.2) :=
  C3_single_failure_boundary.2.1 omega3 productC3 "4ee229.myshopify.com" 0 .typeErr rfl

/-- C8: the reconciliation pass never issues a mutation that writes the
per-product order metafield (namespace custom, key product_order): every
request in any run's trace is a query, the collection reorder mutation, or a
metafieldsSet whose entries all target related_products in the
product-recommendation namespace. -/
theorem C8_no_productOrder_mutation :
    ∀ (ω : Oracle) (idv : JVal) (shop : String) (k : Nat) (r : Request),
      r ∈ (handleProductUpdate ω idv shop k).2.2 →
      reqOK r = true ∧ writesProductOrder r = false := by
  intro ω idv shop k r hr
  have hall := handleProductUpdate_all ω idv shop k
  rw [List.all_eq_true] at hall
  have h1 := hall r hr
  exact ⟨h1, reqOK_no_productOrder_write r h1⟩

theorem C8_no_productOrder_mutation_witness :
    reqOK (Request.productQuery (JVal.str "1")) = true ∧
    writesProductOrder (Request.productQuery (JVal.str "1")) = false :=
  C8_no_productOrder_mutation omega3 (.str "1") "4ee229.myshopify.com" 0
    (Request.productQuery (JVal.str "1"))
    (by rw [show (handleProductUpdate omega3 (.str "1") "4ee229.myshopify.com" 0).2.2 =
          [Request.productQuery (JVal.str "1")] from rfl]
        exact List.mem_singleton.mpr rfl)

/-- C4 counterexample: the claim treats a non-numeric order value as 0, which
would sort p2 (value x, treated as 0) before p1 (value 5); the code's
comparator turns the non-numeric value into NaN, which Array.prototype.sort
coerces to a tie, so fetch order is kept and p1 stays first.  The move lists
therefore differ at this input. -/
theorem C4_counterexample_nonNumeric :
    moveIdStrs (movesOf mmMembers) = ["p1", "p2"] ∧
    moveIdStrs (specMovesOf mmMembers) = ["p2", "p1"] ∧
    moveIdStrs (movesOf mmMembers) ≠ moveIdStrs (specMovesOf mmMembers) :=
  ⟨rfl, rfl, by decide⟩

/-- C4 (amended): the desired order is the stable sort of the member list by
numeric order value ascending where a missing or empty value is treated as 0
and tied members keep fetch order, and the moves list assigns the 1-based
positions as decimal strings; however a non-numeric (NaN) order value makes
its comparisons ties rather than acting as 0.  On the claim's scenario
[(p1,"2"), (p2,"1"), (p3, missing)] the moves are [(p3,1), (p2,2), (p1,3)]. -/
theorem C4_desired_order_amended :
    movesOf exMembers = [⟨.str "p3", "1"⟩, ⟨.str "p2", "2"⟩, ⟨.str "p1", "3"⟩] ∧
    (∀ l : List Member, (∀ m ∈ l, (memberKey m).isSome = true) →
      sortMembers l = specSortByZero l) ∧
    (∀ a b : Member, memberKey a = none ∨ memberKey b = none → cmpLe a b = true) ∧
    (∀ l : List Member, (movesOf l).map Move.newPosition =
      (List.range l.length).map (fun j => toString (j + 1))) := by
  refine ⟨rfl, ?_, ?_, ?_⟩
  · intro l hnum
    apply jsArraySort_congr
    intro a ha b hb
    obtain ⟨x, hx⟩ := Option.isSome_iff_exists.mp (hnum a ha)
    obtain ⟨y, hy⟩ := Option.isSome_iff_exists.mp (hnum b hb)
    unfold cmpLe specKeyZero
    rw [hx, hy]
    rfl
  · intro a b h
    unfold cmpLe
    rcases h with h | h
    · rw [h]
    · rw [h]
      cases memberKey a <;> rfl
  · intro l
    unfold movesOf movesFromSorted
    rw [movesGo_positions 0 (sortMembers l)]
    rw [show sortMembers l = jsArraySort cmpLe l from rfl, jsArraySort_length]
    apply List.map_congr_left
    intro j _
    rw [Nat.zero_add]

theorem C4_desired_order_amended_witness :
    sortMembers collInOrderMembers = specSortByZero collInOrderMembers ∧
    cmpLe ⟨.str "a", .str "x"⟩ ⟨.str "b", .str "1"⟩ = true :=
  ⟨C4_desired_order_amended.2.1 collInOrderMembers (by decide),
   C4_desired_order_amended.2.2.1 ⟨.str "a", .str "x"⟩ ⟨.str "b", .str "1"⟩ (Or.inl (by decide))⟩

/-- C5: for every fetched collection whose desired identifier sequence equals
the fetched sequence, processCollection issues no request at all; and the
sort is idempotent — sorting the output of a previous sort changes nothing —
so a second reconciliation run over the member order a first run produced,
with unchanged order metadata, skips the reorder mutation for every
collection. -/
theorem C5_skip_and_idempotence :
    (∀ (ω : Oracle) (c : JVal) (k : Nat) (node : JVal) (members : List Member),
      jsGetE c "node" = .ok node →
      collMembers node = .ok members →
      (sortMembers members).map Member.id = members.map Member.id →
      (processCollection ω c k).2.2 = []) ∧
    (∀ l : List Member, sortMembers (sortMembers l) = sortMembers l) ∧
    (∀ l : List Member,
      (sortMembers (sortMembers l)).map Member.id = (sortMembers l).map Member.id) := by
  refine ⟨?_, sortMembers_idem, fun l => congrArg (List.map Member.id) (sortMembers_idem l)⟩
  intro ω c k node members h1 h2 h3
  unfold processCollection
  rw [h1, bindM_liftE_ok]
  rw [h2, bindM_liftE_ok]
  rw [movesFromSorted_ids, h3, if_pos rfl]
  rfl

theorem C5_skip_and_idempotence_witness :
    (processCollection omega3 collInOrder 5).2.2 = [] :=
  C5_skip_and_idempotence.1 omega3 collInOrder 5 collInOrderNode collInOrderMembers rfl rfl
    (by rfl)

/-- C6: an inbound event whose shop-domain header matches no configured tenant
is rejected: the tenant switch resolves no secret (there is no default
fallback), the verifier called with the undefined sentinel is guaranteed to
fail — it throws, which the handler's catch turns into a 500 response — and
no reconciliation is dispatched, so an event is accepted only when it
resolves to exactly one known tenant. -/
theorem C6_unknown_tenant_rejected :
    ∀ (envPuk envTrade shopHeader hmacHeader : Option String) (body : List Nat),
      shopHeader ≠ some "4ee229.myshopify.com" →
      shopHeader ≠ some "trade4x4.myshopify.com" →
      tenantWebhookSecret envPuk envTrade shopHeader = none ∧
      validateWebhook body hmacHeader none = .error .typeErr ∧
      webhooksRoute envPuk envTrade shopHeader hmacHeader body = ⟨500, none⟩ := by
  intro envPuk envTrade shopHeader hmacHeader body h1 h2
  have hsec : tenantWebhookSecret envPuk envTrade shopHeader = none := by
    unfold tenantWebhookSecret
    split <;> simp_all
  refine ⟨hsec, rfl, ?_⟩
  unfold webhooksRoute
  rw [hsec]
  rfl

theorem C6_unknown_tenant_rejected_witness :
    tenantWebhookSecret (some "k1") (some "k2") (some "other.myshopify.com") = none ∧
    validateWebhook [0] (some "h") none = .error .typeErr ∧
    webhooksRoute (some "k1") (some "k2") (some "other.myshopify.com") (some "h") [0] =
      ⟨500, none⟩ :=
  C6_unknown_tenant_rejected (some "k1") (some "k2") (some "other.myshopify.com") (some "h") [0]
    (by decide) (by decide)

/-- C7: the related-products reconciler is a no-op (no request at all, in
particular no write) whenever the curated metafield value is absent or empty;
when the value is a non-empty string that parses as a JSON list whose elements
split on commas into identifier groups, it issues exactly one variants query
over the flattened, order-preserving, duplicate-keeping identifier list,
followed by exactly one metafieldsSet mutation that sets related_products in
the product-recommendation namespace to the JSON list of the resolved parent
product ids, replacing any prior value. -/
theorem C7_related_products :
    (∀ (ω : Oracle) (product : JVal) (shop : String) (k : Nat),
      (∀ rp, jsGetE product "relatedProducts" = .ok rp →
        jsTruthy (jsGetOpt rp "value") = false) →
      (processRelated ω product shop k).2.2 = []) ∧
    (∀ (ω : Oracle) (product rp : JVal) (s : String) (k : Nat) (elems : List JVal)
        (groups : List (List String)) (vresp : JVal) (vedges : List JVal) (pids : List JVal)
        (ownerId : JVal),
      jsGetE product "relatedProducts" = .ok rp →
      jsGetOpt rp "value" = .str s →
      s ≠ "" →
      jsonParseChars s.data = .ok (.arr elems) →
      elems.mapM splitElem = .ok groups →
      ω k = .ok vresp →
      getPath vresp ["data", "productVariants", "edges"] = .ok (.arr vedges) →
      vedges.mapM (fun e => getPath e ["node", "product", "id"]) = .ok pids →
      jsGetE product "id" = .ok ownerId →
      (processRelated ω product "4ee229.myshopify.com" k).2.2 =
        [Request.variantsQuery groups.flatten,
         Request.metafieldsSet [⟨"related_products",
           "shopify--discovery--product_recommendation", ownerId, "list.product_reference",
           jsonStringifyArr pids⟩]]) := by
  constructor
  · intro ω product shop k h
    unfold processRelated
    cases hrp : jsGetE product "relatedProducts" with
    | error e => rw [bindM_liftE_error]
    | ok rp =>
      rw [bindM_liftE_ok]
      have hv := h rp hrp
      rw [hv]
      rfl
  · intro ω product rp s k elems groups vresp vedges pids ownerId hrp hv hs hparse hsplit hω
      hedges hpids howner
    unfold processRelated
    rw [hrp, bindM_liftE_ok, hv]
    have htr : jsTruthy (JVal.str s) = true := by
      simp [jsTruthy, hs]
    rw [htr]
    simp only [Bool.true_and, beq_self_eq_true, if_true, ite_true]
    rw [show jsonParseVal (.str s) = jsonParseChars s.data from rfl, hparse, bindM_liftE_ok]
    rw [show jsArrE (.arr elems) = .ok elems from rfl, bindM_liftE_ok]
    rw [hsplit, bindM_liftE_ok]
    rw [bindM_requestM_ok ω _ _ k vresp hω]
    simp only []
    rw [hedges, bindM_liftE_ok]
    rw [show jsIterE (.arr vedges) = .ok vedges from rfl, bindM_liftE_ok]
    rw [hpids, bindM_liftE_ok]
    rw [howner, bindM_liftE_ok]
    rw [bindM_requestM_trace_noReq ω _ _ (k + 1)
      (fun v k2 => bindM_trace_noReq _ _ _ rfl
        (fun ue k3 => bindM_trace_noReq _ _ _ rfl (fun _ k4 => rfl)))]

theorem C7_related_products_witness :
    (processRelated omega3 (JVal.str "primitive") "4ee229.myshopify.com" 7).2.2 = [] ∧
    (processRelated omega3 productRel "4ee229.myshopify.com" 1).2.2 =
      [Request.variantsQuery [["11", "12"], ["13"]].flatten,
       Request.metafieldsSet [⟨"related_products",
         "shopify--discovery--product_recommendation", .str "gid-product-1",
         "list.product_reference",
         jsonStringifyArr [.str "A", .str "A", .str "B"]⟩]] :=
  ⟨C7_related_products.1 omega3 (JVal.str "primitive") "4ee229.myshopify.com" 7
    (by intro rp h; cases h; rfl),
   C7_related_products.2 omega3 productRel (.obj [("value", .str "[\"11,12\",\"13\"]")])
     "[\"11,12\",\"13\"]" 1 [.str "11,12", .str "13"] [["11", "12"], ["13"]]
     variantsResp
     [.obj [("node", .obj [("product", .obj [("id", .str "A")])])],
      .obj [("node", .obj [("product", .obj [("id", .str "A")])])],
      .obj [("node", .obj [("product", .obj [("id", .str "B")])])]]
     [.str "A", .str "A", .str "B"] (.str "gid-product-1")
     rfl rfl (by decide) rfl rfl rfl rfl rfl rfl⟩
